import Mathlib

/-!
Verification of the binary-type report filter of `cargo-audit`
(`src/cargo-audit/src/binary_type_filter.rs`).

The development embeds the data model (binary container formats, OS
identifiers, advisories, vulnerability reports) and the three operations of
the core: the cached Apple Platform Set, the applicability predicate
`advisory_applicable_to_binary` / `at_least_one_os_runs_binary`, and the
report filter `filter_report_by_binary_type`. The Rust filter mutates the
report in place and asserts the count/list-length invariant on entry; here
it is a function returning `Option Report`, `none` standing for the
assertion failure.
-/

/-- Byte-order attribute carried by the ELF variants of `binfarce::Format`. -/
inductive ByteOrder where
  | littleEndian
  | bigEndian
deriving DecidableEq

/-- `binfarce::Format`: the closed classification of an executable container
format produced by the external binary classifier. -/
inductive Format where
  | PE
  | Macho
  | Elf32 (byte_order : ByteOrder)
  | Elf64 (byte_order : ByteOrder)
  | Unknown
deriving DecidableEq

/-- Platform/OS identifier from the external `platforms` registry: an
open-ended enumeration of comparable tokens (`Windows`, `Linux`, `MacOS`,
`iOS`, many others), the open end modelled by the `other` constructor. -/
inductive OS where
  | windows
  | linux
  | macos
  | ios
  | tvos
  | watchos
  | freebsd
  | other (name : String)
deriving DecidableEq

/-- Modelled from the spec: the cached Apple Platform Set of
`apple_OSs()` — "all platforms whose identifier matches the wildcard
pattern `*apple*`" in the external platform registry. The registry query
(`PlatformReq::from_str("*apple*").matching_platforms()`) lives in the
excluded `platforms` crate, so its result is modelled as the concrete set
of Apple-family OS identifiers it denotes. -/
def apple_OSs : List OS := [.macos, .ios, .tvos, .watchos]

/-- `rustsec::advisory::Affected` restricted to the field the filter reads:
the affected-OS allow-list. -/
structure Affected where
  os : List OS
deriving DecidableEq

/-- `rustsec::Vulnerability` restricted to the field the filter reads: the
optional `Affected` metadata. -/
structure Vulnerability where
  affected : Option Affected
deriving DecidableEq

/-- The `vulnerabilities` section of a `rustsec::Report`: the ordered list
of matched advisories plus the derived `count` and `found` fields. -/
structure VulnerabilityInfo where
  found : Bool
  count : Nat
  list : List Vulnerability
deriving DecidableEq

/-- A warning attached to a report; opaque to the filter (the Rust code
leaves warnings untouched — a documented limitation). -/
structure Warning where
  message : String
deriving DecidableEq

/-- `rustsec::Report` restricted to the sections relevant to the filter:
vulnerabilities (filtered) and warnings (passed through untouched). -/
structure Report where
  vulnerabilities : VulnerabilityInfo
  warnings : List Warning
deriving DecidableEq

/-- `at_least_one_os_runs_binary`: given the container format and a
(nonempty, in the caller) affected-OS list, decide whether at least one
listed OS can run a binary of that format. -/
def at_least_one_os_runs_binary (binary_type : Format) (os_list : List OS) : Bool :=
  match binary_type with
  | .PE => os_list.contains OS.windows
  | .Macho => os_list.any fun os => apple_OSs.contains os
  | .Elf32 _ | .Elf64 _ =>
      os_list.any fun os => os != OS.windows && !(apple_OSs.contains os)
  | .Unknown => true

/-- `advisory_applicable_to_binary`: an advisory applies when `affected` is
absent, when its OS list is empty, or when some listed OS runs the given
binary format. -/
def advisory_applicable_to_binary (binary_type : Format)
    (affected : Option Affected) : Bool :=
  match affected with
  | some affected =>
      if affected.os.isEmpty then
        true
      else
        at_least_one_os_runs_binary binary_type affected.os
  | none => true

/-- `filter_report_by_binary_type`: assert the count/list-length invariant
(`none` models the Rust assertion failure), retain the applicable
vulnerabilities, and recompute `count` and `found`. -/
def filter_report_by_binary_type (binary_type : Format) (report : Report) :
    Option Report :=
  let vulns := report.vulnerabilities
  if vulns.list.length = vulns.count then
    let newList := vulns.list.filter fun vuln =>
      advisory_applicable_to_binary binary_type vuln.affected
    some { report with
           vulnerabilities :=
             { found := newList.length != 0
               count := newList.length
               list := newList } }
  else
    none

/-- A vulnerability restricted to Windows. -/
def vulnWindows : Vulnerability := ⟨some ⟨[.windows]⟩⟩

/-- A vulnerability restricted to macOS. -/
def vulnMac : Vulnerability := ⟨some ⟨[.macos]⟩⟩

/-- A vulnerability restricted to Linux. -/
def vulnLinux : Vulnerability := ⟨some ⟨[.linux]⟩⟩

/-- An unconstrained vulnerability (no `affected` section). -/
def vulnNone : Vulnerability := ⟨none⟩

/-- The end-to-end sample report of the spec: four vulnerabilities with
affected-OS lists `None`, `[Windows]`, `[MacOS]`, `[Linux]`. -/
def sampleReport : Report := ⟨⟨true, 4, [vulnNone, vulnWindows, vulnMac, vulnLinux]⟩, []⟩

/-- The sample report after filtering for a PE binary: only the
unconstrained and the Windows-only vulnerabilities remain. -/
def samplePEFiltered : Report := ⟨⟨true, 2, [vulnNone, vulnWindows]⟩, []⟩

/-- C1: for every binary format and every report whose `count` equals the
length of its vulnerability list, the filter succeeds and its vulnerability
list is exactly the stable filter of the original list by the applicability
predicate — in particular a sublist of the original, so the relative order
of retained entries is preserved. -/
theorem C1_filter_retains_exactly_applicable
    (binary_type : Format) (report : Report)
    (h : report.vulnerabilities.count = report.vulnerabilities.list.length) :
    ∃ r, filter_report_by_binary_type binary_type report = some r ∧
      r.vulnerabilities.list = report.vulnerabilities.list.filter
        (fun vuln => advisory_applicable_to_binary binary_type vuln.affected) ∧
      r.vulnerabilities.list.Sublist report.vulnerabilities.list := by
  unfold filter_report_by_binary_type
  rw [if_pos h.symm]
  exact ⟨_, rfl, rfl, List.filter_sublist _⟩

/-- Witness for C1 at the spec's end-to-end sample report and format PE. -/
theorem C1_witness :
    ∃ r, filter_report_by_binary_type Format.PE sampleReport = some r ∧
      r.vulnerabilities.list = sampleReport.vulnerabilities.list.filter
        (fun vuln => advisory_applicable_to_binary Format.PE vuln.affected) ∧
      r.vulnerabilities.list.Sublist sampleReport.vulnerabilities.list :=
  C1_filter_retains_exactly_applicable Format.PE sampleReport (by decide)

/-- C2: for every report satisfying the entry precondition, the filtered
report's `count` equals the length of its vulnerability list and its
`found` flag equals `count != 0`. -/
theorem C2_invariants_restored
    (binary_type : Format) (report : Report)
    (h : report.vulnerabilities.count = report.vulnerabilities.list.length) :
    ∃ r, filter_report_by_binary_type binary_type report = some r ∧
      r.vulnerabilities.count = r.vulnerabilities.list.length ∧
      r.vulnerabilities.found = (r.vulnerabilities.count != 0) := by
  unfold filter_report_by_binary_type
  rw [if_pos h.symm]
  exact ⟨_, rfl, rfl, rfl⟩

/-- Witness for C2 at the spec's end-to-end sample report and format Elf64. -/
theorem C2_witness :
    ∃ r, filter_report_by_binary_type (Format.Elf64 .littleEndian) sampleReport = some r ∧
      r.vulnerabilities.count = r.vulnerabilities.list.length ∧
      r.vulnerabilities.found = (r.vulnerabilities.count != 0) :=
  C2_invariants_restored (Format.Elf64 .littleEndian) sampleReport (by decide)

/-- C3: for every nonempty affected-OS list, the applicability predicate
with binary format PE returns true if and only if the list contains the
Windows OS identifier. -/
theorem C3_PE_iff_windows
    (os_list : List OS) (h : os_list ≠ []) :
    advisory_applicable_to_binary Format.PE (some ⟨os_list⟩) = true ↔
      OS.windows ∈ os_list := by
  cases os_list with
  | nil => exact absurd rfl h
  | cons a l =>
      simp [advisory_applicable_to_binary, at_least_one_os_runs_binary]

/-- Witness for C3 at the singleton list `[Windows]`. -/
theorem C3_witness :
    advisory_applicable_to_binary Format.PE (some ⟨[OS.windows]⟩) = true ↔
      OS.windows ∈ [OS.windows] :=
  C3_PE_iff_windows [OS.windows] (by decide)

/-- C4: for every nonempty affected-OS list, the applicability predicate
with binary format Macho returns true if and only if the list contains at
least one OS identifier belonging to the cached Apple Platform Set. -/
theorem C4_Macho_iff_apple
    (os_list : List OS) (h : os_list ≠ []) :
    advisory_applicable_to_binary Format.Macho (some ⟨os_list⟩) = true ↔
      ∃ os ∈ os_list, os ∈ apple_OSs := by
  cases os_list with
  | nil => exact absurd rfl h
  | cons a l =>
      simp [advisory_applicable_to_binary, at_least_one_os_runs_binary]

/-- Witness for C4 at the list `[MacOS, Linux]`. -/
theorem C4_witness :
    (advisory_applicable_to_binary Format.Macho (some ⟨[OS.macos, OS.linux]⟩) = true ↔
      ∃ os ∈ [OS.macos, OS.linux], os ∈ apple_OSs) :=
  C4_Macho_iff_apple [OS.macos, OS.linux] (by decide)

/-- C5: for every nonempty affected-OS list and any byte orders, the
applicability predicate with format Elf32 or Elf64 returns true iff the
list contains an OS that is neither Windows nor in the Apple Platform Set,
and Elf32 and Elf64 with any byte orders agree on the same list. -/
theorem C5_Elf_iff_other_os
    (os_list : List OS) (h : os_list ≠ []) (bo bo' : ByteOrder) :
    (advisory_applicable_to_binary (Format.Elf32 bo) (some ⟨os_list⟩) = true ↔
      ∃ os ∈ os_list, os ≠ OS.windows ∧ os ∉ apple_OSs) ∧
    advisory_applicable_to_binary (Format.Elf32 bo) (some ⟨os_list⟩) =
      advisory_applicable_to_binary (Format.Elf64 bo') (some ⟨os_list⟩) ∧
    (advisory_applicable_to_binary (Format.Elf64 bo') (some ⟨os_list⟩) = true ↔
      ∃ os ∈ os_list, os ≠ OS.windows ∧ os ∉ apple_OSs) := by
  cases os_list with
  | nil => exact absurd rfl h
  | cons a l =>
      refine ⟨?_, rfl, ?_⟩ <;>
        simp [advisory_applicable_to_binary, at_least_one_os_runs_binary]

/-- Witness for C5 at the list `[Linux]` and mixed byte orders. -/
theorem C5_witness :
    (advisory_applicable_to_binary (Format.Elf32 .bigEndian) (some ⟨[OS.linux]⟩) = true ↔
      ∃ os ∈ [OS.linux], os ≠ OS.windows ∧ os ∉ apple_OSs) ∧
    advisory_applicable_to_binary (Format.Elf32 .bigEndian) (some ⟨[OS.linux]⟩) =
      advisory_applicable_to_binary (Format.Elf64 .littleEndian) (some ⟨[OS.linux]⟩) ∧
    (advisory_applicable_to_binary (Format.Elf64 .littleEndian) (some ⟨[OS.linux]⟩) = true ↔
      ∃ os ∈ [OS.linux], os ≠ OS.windows ∧ os ∉ apple_OSs) :=
  C5_Elf_iff_other_os [OS.linux] (by decide) .bigEndian .littleEndian

/-- C6: with binary format Unknown the applicability predicate returns true
on every affected structure, so filtering with format Unknown (given the
entry precondition) removes no advisory. -/
theorem C6_unknown_maximally_permissive :
    (∀ affected : Option Affected,
      advisory_applicable_to_binary Format.Unknown affected = true) ∧
    ∀ report : Report,
      report.vulnerabilities.count = report.vulnerabilities.list.length →
      ∃ r, filter_report_by_binary_type Format.Unknown report = some r ∧
        r.vulnerabilities.list = report.vulnerabilities.list := by
  constructor
  · intro affected
    cases affected with
    | none => rfl
    | some a =>
        simp [advisory_applicable_to_binary, at_least_one_os_runs_binary]
  · intro report h
    unfold filter_report_by_binary_type
    rw [if_pos h.symm]
    refine ⟨_, rfl, ?_⟩
    simp only [List.filter_eq_self]
    intro v _
    cases v.affected with
    | none => rfl
    | some a =>
        simp [advisory_applicable_to_binary, at_least_one_os_runs_binary]

/-- Witness for C6 at the spec's end-to-end sample report. -/
theorem C6_witness :
    ∃ r, filter_report_by_binary_type Format.Unknown sampleReport = some r ∧
      r.vulnerabilities.list = sampleReport.vulnerabilities.list :=
  C6_unknown_maximally_permissive.2 sampleReport (by decide)

/-- C7: for every binary format the applicability predicate returns true
when `affected` is absent and when its OS list is empty, and every such
unconstrained vulnerability of a report meeting the entry precondition is
still present after filtering. -/
theorem C7_unconstrained_always_retained (binary_type : Format) :
    advisory_applicable_to_binary binary_type none = true ∧
    (∀ a : Affected, a.os = [] →
      advisory_applicable_to_binary binary_type (some a) = true) ∧
    ∀ report : Report,
      report.vulnerabilities.count = report.vulnerabilities.list.length →
      ∀ v ∈ report.vulnerabilities.list,
        (v.affected = none ∨ ∃ a, v.affected = some a ∧ a.os = []) →
        ∃ r, filter_report_by_binary_type binary_type report = some r ∧
          v ∈ r.vulnerabilities.list := by
  refine ⟨rfl, ?_, ?_⟩
  · intro a ha
    simp [advisory_applicable_to_binary, ha]
  · intro report h v hv hunc
    unfold filter_report_by_binary_type
    rw [if_pos h.symm]
    refine ⟨_, rfl, ?_⟩
    apply List.mem_filter.mpr
    refine ⟨hv, ?_⟩
    rcases hunc with hnone | ⟨a, ha, haos⟩
    · simp [advisory_applicable_to_binary, hnone]
    · simp [advisory_applicable_to_binary, ha, haos]

/-- Witness for C7 at format Macho, the sample report and its unconstrained
first vulnerability. -/
theorem C7_witness :
    ∃ r, filter_report_by_binary_type Format.Macho sampleReport = some r ∧
      vulnNone ∈ r.vulnerabilities.list :=
  (C7_unconstrained_always_retained Format.Macho).2.2 sampleReport (by decide)
    vulnNone (by decide) (Or.inl rfl)

/-- C8: the filter fails (returns `none`, modelling the Rust assertion
failure) iff on entry the report's `count` differs from the length of its
vulnerability list; under the precondition it always yields a result. -/
theorem C8_fails_iff_count_mismatch (binary_type : Format) (report : Report) :
    (filter_report_by_binary_type binary_type report = none ↔
      report.vulnerabilities.count ≠ report.vulnerabilities.list.length) ∧
    (report.vulnerabilities.count = report.vulnerabilities.list.length →
      ∃ r, filter_report_by_binary_type binary_type report = some r) := by
  constructor
  · unfold filter_report_by_binary_type
    by_cases h : report.vulnerabilities.list.length = report.vulnerabilities.count
    · rw [if_pos h]
      simp [h.symm]
    · rw [if_neg h]
      simp only [true_iff]
      exact fun hc => h hc.symm
  · intro h
    unfold filter_report_by_binary_type
    rw [if_pos h.symm]
    exact ⟨_, rfl⟩

/-- Witness for C8 at format PE and the sample report. -/
theorem C8_witness :
    (filter_report_by_binary_type Format.PE sampleReport = none ↔
      sampleReport.vulnerabilities.count ≠ sampleReport.vulnerabilities.list.length) ∧
    ∃ r, filter_report_by_binary_type Format.PE sampleReport = some r :=
  ⟨(C8_fails_iff_count_mismatch Format.PE sampleReport).1,
   (C8_fails_iff_count_mismatch Format.PE sampleReport).2 (by decide)⟩

/-- Characterization of a successful run of the filter: under the entry
precondition it returns the report with the vulnerability list filtered by
the applicability predicate and the summary fields recomputed. -/
theorem filter_report_eq_some
    (binary_type : Format) (report : Report)
    (h : report.vulnerabilities.list.length = report.vulnerabilities.count) :
    filter_report_by_binary_type binary_type report =
      some { report with
             vulnerabilities :=
               { found := (report.vulnerabilities.list.filter fun vuln =>
                   advisory_applicable_to_binary binary_type vuln.affected).length != 0
                 count := (report.vulnerabilities.list.filter fun vuln =>
                   advisory_applicable_to_binary binary_type vuln.affected).length
                 list := report.vulnerabilities.list.filter fun vuln =>
                   advisory_applicable_to_binary binary_type vuln.affected } } := by
  unfold filter_report_by_binary_type
  rw [if_pos h]

/-- C9: filtering is idempotent — refiltering an already-filtered report
with the same binary format returns that report unchanged. -/
theorem C9_filter_idempotent
    (binary_type : Format) (report r : Report)
    (h : report.vulnerabilities.count = report.vulnerabilities.list.length)
    (hr : filter_report_by_binary_type binary_type report = some r) :
    filter_report_by_binary_type binary_type r = some r := by
  have hff : (report.vulnerabilities.list.filter fun vuln =>
      advisory_applicable_to_binary binary_type vuln.affected).filter
        (fun vuln => advisory_applicable_to_binary binary_type vuln.affected) =
      report.vulnerabilities.list.filter fun vuln =>
        advisory_applicable_to_binary binary_type vuln.affected :=
    List.filter_eq_self.mpr fun a ha => (List.mem_filter.mp ha).2
  rw [filter_report_eq_some binary_type report h.symm] at hr
  injection hr with hr
  subst hr
  rw [filter_report_eq_some binary_type _ rfl]
  simp only [hff]

/-- Witness for C9 at format PE, the sample report and its PE-filtered
result. -/
theorem C9_witness :
    filter_report_by_binary_type Format.PE samplePEFiltered = some samplePEFiltered :=
  C9_filter_idempotent Format.PE sampleReport samplePEFiltered (by decide) (by decide)

/-- C10: for every nonempty affected-OS list, the predicate accepts at
least one of the classified formats PE, Macho, Elf32, Elf64 — every head
OS is either Windows, Apple-family, or neither, satisfying the
corresponding branch. -/
theorem C10_format_coverage
    (os_list : List OS) (h : os_list ≠ []) (bo32 bo64 : ByteOrder) :
    at_least_one_os_runs_binary Format.PE os_list = true ∨
    at_least_one_os_runs_binary Format.Macho os_list = true ∨
    at_least_one_os_runs_binary (Format.Elf32 bo32) os_list = true ∨
    at_least_one_os_runs_binary (Format.Elf64 bo64) os_list = true := by
  cases os_list with
  | nil => exact absurd rfl h
  | cons a l =>
      by_cases hw : a = OS.windows
      · left
        simp [at_least_one_os_runs_binary, hw]
      · by_cases ha : a ∈ apple_OSs
        · right; left
          simp only [at_least_one_os_runs_binary, List.any_eq_true]
          exact ⟨a, List.mem_cons_self a l, by simpa using ha⟩
        · right; right; left
          simp only [at_least_one_os_runs_binary, List.any_eq_true]
          refine ⟨a, List.mem_cons_self a l, ?_⟩
          simp [hw, ha]

/-- Witness for C10 at the singleton list `[Linux]`. -/
theorem C10_witness :
    at_least_one_os_runs_binary Format.PE [OS.linux] = true ∨
    at_least_one_os_runs_binary Format.Macho [OS.linux] = true ∨
    at_least_one_os_runs_binary (Format.Elf32 .littleEndian) [OS.linux] = true ∨
    at_least_one_os_runs_binary (Format.Elf64 .bigEndian) [OS.linux] = true :=
  C10_format_coverage [OS.linux] (by decide) .littleEndian .bigEndian
